import Mathlib

/-
Verification of the rust-postgres protocol engine (src/lib.rs) against its
natural-language specification.

The development is a shallow embedding of the connection state machine of
`src/lib.rs`.  The backend is modelled as a list of incoming
`BackendMessage` frames; reading a frame consumes the head of the list.
Writing is modelled by returning the list of `FrontendMessage` frames the
client puts on the wire.  Blocking on an exhausted input list is modelled
by the result `RunError.blocked`; the Rust `unreachable!`/`fail!` macros by
`RunError.panicked`; the `assert!` macro by `RunError.assertFailed`.
-/

set_option autoImplicit false

namespace RustPostgres

/-- An asynchronous notification, from `struct PostgresNotification`
(src/lib.rs lines 161-168). -/
structure PostgresNotification where
  pid : Int
  channel : String
  payload : String
  deriving DecidableEq, Repr

/-- Raw bytes of a wire value: one byte per `Nat` entry. -/
abbrev Bytes := List Nat

/-- A wire row: an ordered sequence of nullable byte slices. -/
abbrev WireRow := List (Option Bytes)

/-- Backend (server to client) messages, from the `BackendMessage` enum of the
`message` module as imported and consumed by src/lib.rs.  The status byte of
`ReadyForQuery` is matched as `ReadyForQuery { .. }` by every consumer in
src/lib.rs and is therefore omitted. -/
inductive BackendMessage where
  | AuthenticationOk
  | AuthenticationKerberosV5
  | AuthenticationCleartextPassword
  | AuthenticationMD5Password (salt : Bytes)
  | AuthenticationSCMCredential
  | AuthenticationGSS
  | AuthenticationSSPI
  | BackendKeyData (processId : Int) (secretKey : Int)
  | BindComplete
  | CommandComplete (tag : String)
  | DataRow (row : WireRow)
  | EmptyQueryResponse
  | ErrorResponse (fields : List (Nat × String))
  | NoData
  | NoticeResponse (fields : List (Nat × String))
  | NotificationResponse (pid : Int) (channel : String) (payload : String)
  | ParameterDescription (types : List Nat)
  | ParameterStatus (parameter : String) (value : String)
  | ParseComplete
  | PortalSuspended
  | ReadyForQuery
  | RowDescription (descriptions : List (String × Nat))
  deriving DecidableEq, Repr

/-- Frontend (client to server) messages, from the `FrontendMessage` enum of
the `message` module as emitted by src/lib.rs. -/
inductive FrontendMessage where
  | Bind (portal : String) (statement : String) (formats : List Int)
      (values : List (Option Bytes)) (resultFormats : List Int)
  | CancelRequest (code : Nat) (processId : Int) (secretKey : Int)
  | Close (variant : Nat) (closeName : String)
  | Describe (variant : Nat) (describeName : String)
  | Execute (portal : String) (maxRows : Int)
  | Parse (stmtName : String) (query : String) (paramTypes : List Nat)
  | PasswordMessage (password : String)
  | Query (query : String)
  | SslRequest (code : Nat)
  | Sync
  | Terminate
  deriving DecidableEq, Repr

/-- How a run of the state machine can fail to return normally:
`blocked` models an exhausted input list (the Rust code would block on the
socket), `panicked` models `unreachable!`/`fail!`, and `assertFailed`
models a failed `assert!`. -/
inductive RunError where
  | blocked
  | panicked
  | assertFailed
  deriving DecidableEq, Repr

/-- Frames absorbed by the `read_message` multiplexer without being returned
to the caller (src/lib.rs lines 421-437). -/
def isAsync : BackendMessage → Bool
  | .NoticeResponse _ => true
  | .NotificationResponse _ _ _ => true
  | .ParameterStatus _ _ => true
  | _ => false

/-- Notifications carried by a list of frames, in frame order. -/
def notifsOf : List BackendMessage → List PostgresNotification
  | [] => []
  | .NotificationResponse pid ch pl :: rest =>
      ⟨pid, ch, pl⟩ :: notifsOf rest
  | _ :: rest => notifsOf rest

/-- The message multiplexer `InnerPostgresConnection::read_message`
(src/lib.rs lines 421-437): reads frames in a loop; `NoticeResponse` is
handed to the notice handler, `NotificationResponse` is pushed to the back
of the notification queue, `ParameterStatus` is logged and discarded;
anything else is returned.  The second argument and third result component
are the connection's notification queue. -/
def readMessage : List BackendMessage → List PostgresNotification →
    Except RunError (BackendMessage × List BackendMessage × List PostgresNotification)
  | [], _ => .error .blocked
  | f :: rest, q =>
    match f with
    | .NoticeResponse _ => readMessage rest q
    | .NotificationResponse pid ch pl => readMessage rest (q ++ [⟨pid, ch, pl⟩])
    | .ParameterStatus _ _ => readMessage rest q
    | m => .ok (m, rest, q)

/-- Resynchronization point `InnerPostgresConnection::wait_for_ready`
(src/lib.rs lines 577-582): one `read_message` call whose result must be
`ReadyForQuery`; any other frame hits `unreachable!`. -/
def waitForReady (inp : List BackendMessage) (q : List PostgresNotification) :
    Except RunError (List BackendMessage × List PostgresNotification) :=
  match readMessage inp q with
  | .ok (.ReadyForQuery, rest, q2) => .ok (rest, q2)
  | .ok _ => .error .panicked
  | .error e => .error e

theorem readMessage_skips_async (pre : List BackendMessage)
    (h : pre.all isAsync = true) (m : BackendMessage) (rest : List BackendMessage)
    (q : List PostgresNotification) (hm : isAsync m = false) :
    readMessage (pre ++ m :: rest) q = .ok (m, rest, q ++ notifsOf pre) := by
  induction pre generalizing q with
  | nil =>
    cases m <;> simp [readMessage, notifsOf] <;> simp [isAsync] at hm
  | cons f pre ih =>
    rw [List.all_cons, Bool.and_eq_true] at h
    obtain ⟨hf, hpre⟩ := h
    cases f <;> simp [isAsync] at hf <;>
      simp [readMessage, notifsOf, ih hpre, List.append_assoc]

theorem readMessage_cons (m : BackendMessage) (tl : List BackendMessage)
    (q : List PostgresNotification) (hm : isAsync m = false) :
    readMessage (m :: tl) q = .ok (m, tl, q) := by
  cases m <;> first | rfl | simp [isAsync] at hm

theorem readMessage_length {inp : List BackendMessage}
    {q : List PostgresNotification} {m : BackendMessage}
    {rest : List BackendMessage} {q2 : List PostgresNotification}
    (h : readMessage inp q = .ok (m, rest, q2)) : rest.length < inp.length := by
  induction inp generalizing q with
  | nil => simp [readMessage] at h
  | cons f tl ih =>
    cases f <;> simp only [readMessage] at h <;>
      first
        | (cases h; simp)
        | (exact Nat.lt_trans (ih h) (by simp))

theorem readMessage_ne_assert (inp : List BackendMessage)
    (q : List PostgresNotification) :
    readMessage inp q ≠ .error .assertFailed := by
  induction inp generalizing q with
  | nil => simp [readMessage]
  | cons f tl ih =>
    cases f <;> simp [readMessage] <;> apply ih

theorem waitForReady_ne_assert (inp : List BackendMessage)
    (q : List PostgresNotification) :
    waitForReady inp q ≠ .error .assertFailed := by
  unfold waitForReady
  rcases h : readMessage inp q with e | ⟨m, rest, q2⟩
  · intro hc
    simp at hc
    exact readMessage_ne_assert inp q (by rw [h, hc])
  · cases m <;> simp

/-
MD5 and the password hash of `handle_auth`.

The `openssl` MD5 hasher used by src/lib.rs is an external collaborator; it
is embedded here as a full executable MD5 (RFC 1321) over byte lists, so
that the password computation of `handle_auth` can be evaluated on concrete
inputs.  Two standard test vectors are proved below (`md5_vector_empty`,
`md5_vector_abc`).
-/

/-- Reduce a machine word to 32 bits. -/
def w32 (x : Nat) : Nat := x % 4294967296

/-- Left rotation of a 32-bit word by `n` bits (`n ≤ 32`). -/
def rotl32 (x n : Nat) : Nat := w32 (x <<< n) ||| (w32 x >>> (32 - n))

/-- Bitwise complement of a 32-bit word. -/
def not32 (x : Nat) : Nat := x ^^^ 4294967295

/-- Per-round sine-derived constants of MD5 (RFC 1321). -/
def md5K : List Nat :=
  [0xd76aa478, 0xe8c7b756, 0x242070db, 0xc1bdceee,
   0xf57c0faf, 0x4787c62a, 0xa8304613, 0xfd469501,
   0x698098d8, 0x8b44f7af, 0xffff5bb1, 0x895cd7be,
   0x6b901122, 0xfd987193, 0xa679438e, 0x49b40821,
   0xf61e2562, 0xc040b340, 0x265e5a51, 0xe9b6c7aa,
   0xd62f105d, 0x02441453, 0xd8a1e681, 0xe7d3fbc8,
   0x21e1cde6, 0xc33707d6, 0xf4d50d87, 0x455a14ed,
   0xa9e3e905, 0xfcefa3f8, 0x676f02d9, 0x8d2a4c8a,
   0xfffa3942, 0x8771f681, 0x6d9d6122, 0xfde5380c,
   0xa4beea44, 0x4bdecfa9, 0xf6bb4b60, 0xbebfbc70,
   0x289b7ec6, 0xeaa127fa, 0xd4ef3085, 0x04881d05,
   0xd9d4d039, 0xe6db99e5, 0x1fa27cf8, 0xc4ac5665,
   0xf4292244, 0x432aff97, 0xab9423a7, 0xfc93a039,
   0x655b59c3, 0x8f0ccc92, 0xffeff47d, 0x85845dd1,
   0x6fa87e4f, 0xfe2ce6e0, 0xa3014314, 0x4e0811a1,
   0xf7537e82, 0xbd3af235, 0x2ad7d2bb, 0xeb86d391]

/-- Per-step left-rotation amounts of MD5 (RFC 1321). -/
def md5S : List Nat :=
  [7, 12, 17, 22, 7, 12, 17, 22, 7, 12, 17, 22, 7, 12, 17, 22,
   5, 9, 14, 20, 5, 9, 14, 20, 5, 9, 14, 20, 5, 9, 14, 20,
   4, 11, 16, 23, 4, 11, 16, 23, 4, 11, 16, 23, 4, 11, 16, 23,
   6, 10, 15, 21, 6, 10, 15, 21, 6, 10, 15, 21, 6, 10, 15, 21]

/-- Message-word index used in step `i` of MD5. -/
def md5G (i : Nat) : Nat :=
  if i < 16 then i
  else if i < 32 then (5 * i + 1) % 16
  else if i < 48 then (3 * i + 5) % 16
  else (7 * i) % 16

/-- Nonlinear mixing function of step `i` of MD5. -/
def md5F (i b c d : Nat) : Nat :=
  if i < 16 then (b &&& c) ||| (not32 b &&& d)
  else if i < 32 then (d &&& b) ||| (not32 d &&& c)
  else if i < 48 then b ^^^ c ^^^ d
  else c ^^^ (b ||| not32 d)

/-- Little-endian 32-bit word `g` of a 64-byte block. -/
def md5Word (block : Bytes) (g : Nat) : Nat :=
  block.getD (4 * g) 0 + 256 * block.getD (4 * g + 1) 0 +
    65536 * block.getD (4 * g + 2) 0 + 16777216 * block.getD (4 * g + 3) 0

/-- One MD5 compression of a 64-byte block into the running state. -/
def md5Compress (st : Nat × Nat × Nat × Nat) (block : Bytes) :
    Nat × Nat × Nat × Nat :=
  let step := fun (s : Nat × Nat × Nat × Nat) (i : Nat) =>
    let (a, b, c, d) := s
    let tmp := w32 (a + md5F i b c d + md5K.getD i 0 + md5Word block (md5G i))
    (d, w32 (b + rotl32 tmp (md5S.getD i 0)), b, c)
  let (a0, b0, c0, d0) := st
  let (a, b, c, d) := (List.range 64).foldl step (a0, b0, c0, d0)
  (w32 (a0 + a), w32 (b0 + b), w32 (c0 + c), w32 (d0 + d))

/-- Little-endian bytes of a 32-bit word. -/
def le32 (x : Nat) : Bytes :=
  [x % 256, x / 256 % 256, x / 65536 % 256, x / 16777216 % 256]

/-- Little-endian bytes of a 64-bit word. -/
def le64 (x : Nat) : Bytes :=
  [x % 256, x / 2 ^ 8 % 256, x / 2 ^ 16 % 256, x / 2 ^ 24 % 256,
   x / 2 ^ 32 % 256, x / 2 ^ 40 % 256, x / 2 ^ 48 % 256, x / 2 ^ 56 % 256]

/-- MD5 padding: a `0x80` byte, zeros to 56 mod 64, then the bit length as a
little-endian 64-bit word. -/
def md5Pad (msg : Bytes) : Bytes :=
  let zeros := (56 + 64 - (msg.length + 1) % 64) % 64
  msg ++ 0x80 :: List.replicate zeros 0 ++ le64 (8 * msg.length)

/-- Split a byte list into 64-byte chunks.  The fuel argument (an upper bound
on the number of chunks, here the list length) only makes the recursion
structural; it never runs out on the padded inputs `md5` feeds in. -/
def chunks64Aux : Nat → Bytes → List Bytes
  | 0, _ => []
  | fuel + 1, l => if l.isEmpty then [] else l.take 64 :: chunks64Aux fuel (l.drop 64)

/-- Split a byte list into 64-byte chunks. -/
def chunks64 (l : Bytes) : List Bytes := chunks64Aux l.length l

/-- MD5 digest (RFC 1321) of a byte list. -/
def md5 (msg : Bytes) : Bytes :=
  let blocks := chunks64 (md5Pad msg)
  let st := blocks.foldl md5Compress (0x67452301, 0xefcdab89, 0x98badcfe, 0x10325476)
  le32 st.1 ++ le32 st.2.1 ++ le32 st.2.2.1 ++ le32 st.2.2.2

/-- Lowercase hex digit for a value below 16. -/
def hexDigitChar (n : Nat) : Char :=
  if n < 10 then Char.ofNat (48 + n) else Char.ofNat (87 + n % 16)

/-- Lowercase two-digit hex rendering of one byte, as `extra::hex::ToHex`
renders each byte. -/
def hexByte (b : Nat) : List Char := [hexDigitChar (b / 16 % 16), hexDigitChar (b % 16)]

/-- Lowercase hex string of a byte list (`extra::hex::ToHex`). -/
def toHexStr (bs : Bytes) : String := String.mk (bs.flatMap hexByte)

/-- UTF-8 encoding of one character. -/
def utf8Char (c : Char) : Bytes :=
  let n := c.toNat
  if n < 0x80 then [n]
  else if n < 0x800 then [0xc0 ||| n >>> 6, 0x80 ||| (n &&& 0x3f)]
  else if n < 0x10000 then
    [0xe0 ||| n >>> 12, 0x80 ||| (n >>> 6 &&& 0x3f), 0x80 ||| (n &&& 0x3f)]
  else
    [0xf0 ||| n >>> 18, 0x80 ||| (n >>> 12 &&& 0x3f),
     0x80 ||| (n >>> 6 &&& 0x3f), 0x80 ||| (n &&& 0x3f)]

/-- UTF-8 encoding of a character list. -/
def utf8List : List Char → Bytes
  | [] => []
  | c :: cs => utf8Char c ++ utf8List cs

/-- UTF-8 bytes of a string, as Rust's `str::as_bytes`. -/
def strBytes (s : String) : Bytes := utf8List s.data

theorem utf8List_append (a b : List Char) :
    utf8List (a ++ b) = utf8List a ++ utf8List b := by
  induction a with
  | nil => simp [utf8List]
  | cons c cs ih => simp [utf8List, ih]

theorem strBytes_append (s t : String) :
    strBytes (s ++ t) = strBytes s ++ strBytes t := by
  obtain ⟨l⟩ := s
  obtain ⟨m⟩ := t
  show utf8List (l ++ m) = _
  exact utf8List_append l m

/-- Incremental hasher state, modelling `openssl::crypto::hash::Hasher` with
the MD5 algorithm: `update` accumulates bytes, `finalBytes` digests them. -/
structure Hasher where
  acc : Bytes
  deriving DecidableEq, Repr

/-- Fresh MD5 hasher, `Hasher::new(MD5)`. -/
def Hasher.fresh : Hasher := ⟨[]⟩

/-- Feed bytes, `Hasher::update`. -/
def Hasher.update (h : Hasher) (bs : Bytes) : Hasher := ⟨h.acc ++ bs⟩

/-- Produce the digest, `Hasher::final`. -/
def Hasher.finalBytes (h : Hasher) : Bytes := md5 h.acc

/-- MD5 test vector: the digest of the empty message
(hex `d41d8cd98f00b204e9800998ecf8427e`). -/
theorem md5_vector_empty :
    md5 [] = [0xd4, 0x1d, 0x8c, 0xd9, 0x8f, 0x00, 0xb2, 0x04,
              0xe9, 0x80, 0x09, 0x98, 0xec, 0xf8, 0x42, 0x7e] := by
  decide

/-- MD5 test vector: the digest of `"abc"`
(hex `900150983cd24fb0d6963f7d28e17f72`). -/
theorem md5_vector_abc :
    md5 (strBytes "abc") = [0x90, 0x01, 0x50, 0x98, 0x3c, 0xd2, 0x4f, 0xb0,
                            0xd6, 0x96, 0x3f, 0x7d, 0x28, 0xe1, 0x7f, 0x72] := by
  decide

/-- Connect-time errors, from `PostgresConnectError` of the `error` module as
used by src/lib.rs.  The SSL error payload is carried abstractly. -/
inductive PostgresConnectError where
  | invalidUrl
  | dnsError
  | socketError
  | noSslSupport
  | sslError (inner : Nat)
  | missingUser
  | missingPassword
  | unsupportedAuthentication
  | dbError (fields : List (Nat × String))
  deriving DecidableEq, Repr

/-- Runtime database error.  Modelled from the spec: `PostgresDbError` of the
`error` module (not under src/) is a structured parse of the backend's
`ErrorResponse` field map; it is carried here as the raw field list that
`PostgresDbError::new(fields)` receives. -/
structure PostgresDbError where
  fields : List (Nat × String)
  deriving DecidableEq, Repr

/-- URL user info, from `extra::url::UserInfo` as consumed by `handle_auth`:
the user name and the optional password. -/
structure UserInfo where
  user : String
  pass : Option String
  deriving DecidableEq, Repr

/-- The MD5 branch of `handle_auth` (src/lib.rs lines 455-462): the password
string sent for `AuthenticationMD5Password` given the user, the password and
the salt. -/
def clientMd5Password (user pass : String) (salt : Bytes) : String :=
  let input := pass ++ user
  let hasher := Hasher.fresh
  let hasher := hasher.update (strBytes input)
  let output := toHexStr hasher.finalBytes
  let hasher2 := Hasher.fresh
  let hasher2 := hasher2.update (strBytes output)
  let hasher2 := hasher2.update salt
  "md5" ++ toHexStr hasher2.finalBytes

/-- The password form the spec prescribes, written from its words:
`md5 || hex(md5(hex(md5(password || user)) || salt))`. -/
def specMd5Password (user pass : String) (salt : Bytes) : String :=
  "md5" ++ toHexStr (md5 (strBytes (toHexStr (md5 (strBytes (pass ++ user)))) ++ salt))

/-- The read that follows a PasswordMessage in `handle_auth`
(src/lib.rs lines 476-481): `AuthenticationOk` succeeds, `ErrorResponse`
fails with a database error, anything else is `unreachable!`. -/
def handleAuthSecondRead (inp : List BackendMessage) (q : List PostgresNotification) :
    Except RunError (Option PostgresConnectError × List BackendMessage × List PostgresNotification) :=
  match readMessage inp q with
  | .ok (.AuthenticationOk, rest, q2) => .ok (none, rest, q2)
  | .ok (.ErrorResponse fields, rest, q2) => .ok (some (.dbError fields), rest, q2)
  | .ok _ => .error .panicked
  | .error e => .error e

/-- Authentication driver `InnerPostgresConnection::handle_auth`
(src/lib.rs lines 439-482).  The first result component is the list of
frontend messages written; `some err` in the second means `try_connect`
returns `Err(err)` (src/lib.rs lines 393-396). -/
def handleAuth (user : UserInfo) (inp : List BackendMessage)
    (q : List PostgresNotification) :
    List FrontendMessage ×
      Except RunError (Option PostgresConnectError × List BackendMessage × List PostgresNotification) :=
  match readMessage inp q with
  | .error e => ([], .error e)
  | .ok (m, rest, q2) =>
    match m with
    | .AuthenticationOk => ([], .ok (none, rest, q2))
    | .AuthenticationCleartextPassword =>
      match user.pass with
      | none => ([], .ok (some .missingPassword, rest, q2))
      | some pass =>
        ([.PasswordMessage pass], handleAuthSecondRead rest q2)
    | .AuthenticationMD5Password salt =>
      match user.pass with
      | none => ([], .ok (some .missingPassword, rest, q2))
      | some pass =>
        ([.PasswordMessage (clientMd5Password user.user pass salt)],
          handleAuthSecondRead rest q2)
    | .AuthenticationKerberosV5 => ([], .ok (some .unsupportedAuthentication, rest, q2))
    | .AuthenticationSCMCredential => ([], .ok (some .unsupportedAuthentication, rest, q2))
    | .AuthenticationGSS => ([], .ok (some .unsupportedAuthentication, rest, q2))
    | .AuthenticationSSPI => ([], .ok (some .unsupportedAuthentication, rest, q2))
    | .ErrorResponse fields => ([], .ok (some (.dbError fields), rest, q2))
    | _ => ([], .error .panicked)

/-- SSL mode selector, from `enum SslMode` (src/lib.rs lines 750-757); the
TLS contexts carried by `PreferSsl`/`RequireSsl` are external and omitted. -/
inductive SslMode where
  | NoSsl
  | PreferSsl
  | RequireSsl
  deriving DecidableEq, Repr

/-- Transport produced by connect-time negotiation, from `enum InternalStream`
(src/lib.rs lines 284-287). -/
inductive StreamKind where
  | Normal
  | Ssl
  deriving DecidableEq, Repr

/-- Modelled from the spec: `message::SSL_CODE`, the SSL handshake code
`80877103` (the `message` module is not under src/). -/
def sslCode : Nat := 80877103

/-- Connect-time negotiation `initialize_stream` (src/lib.rs lines 254-282),
after a socket has been opened.  `replyByte` is the server's single-byte
reply to the SslRequest; `handshake` is the outcome of
`SslStream::try_new` (external TLS), with an abstract error payload. -/
def initStream (ssl : SslMode) (replyByte : Nat) (handshake : Except Nat Unit) :
    List FrontendMessage × Except PostgresConnectError StreamKind :=
  match ssl with
  | .NoSsl => ([], .ok .Normal)
  | .PreferSsl =>
    ([.SslRequest sslCode],
      if replyByte = 78 then .ok .Normal
      else match handshake with
        | .ok _ => .ok .Ssl
        | .error e => .error (.sslError e))
  | .RequireSsl =>
    ([.SslRequest sslCode],
      if replyByte = 78 then .error .noSslSupport
      else match handshake with
        | .ok _ => .ok .Ssl
        | .error e => .error (.sslError e))

/-- Transaction handle, from `struct PostgresTransaction`
(src/lib.rs lines 760-764): the `commit` flag (default true) and the
`nested` flag. -/
structure PostgresTransaction where
  commit : Bool
  nested : Bool
  deriving DecidableEq, Repr

/-- Query issued when a transaction handle is dropped
(src/lib.rs lines 766-785).  `failing` is `task::failing()`, whether the
surrounding task is unwinding. -/
def transactionDropQuery (failing : Bool) (t : PostgresTransaction) : String :=
  if failing || !t.commit then
    if t.nested then "ROLLBACK TO sp" else "ROLLBACK"
  else
    if t.nested then "RELEASE sp" else "COMMIT"

/-- Accessor `PostgresTransaction::will_commit` (src/lib.rs lines 833-835). -/
def willCommit (t : PostgresTransaction) : Bool := t.commit

/-- Setter `PostgresTransaction::set_commit` (src/lib.rs lines 838-840). -/
def setCommit (t : PostgresTransaction) : PostgresTransaction := { t with commit := true }

/-- Setter `PostgresTransaction::set_rollback` (src/lib.rs lines 843-845). -/
def setRollback (t : PostgresTransaction) : PostgresTransaction := { t with commit := false }

/-- Row index resolution for `uint` (src/lib.rs lines 1238-1244):
`assert!(*self != 0)` then `*self - 1`; `none` models the panic. -/
def uintRowIndexIdx (n : Nat) : Option Nat :=
  if n = 0 then none else some (n - 1)

/-- Row index resolution for `int` (src/lib.rs lines 1247-1253):
`assert!(*self >= 1)` then `(*self - 1) as uint`; `none` models the panic. -/
def intRowIndexIdx (i : Int) : Option Nat :=
  if 1 ≤ i then some (i - 1).toNat else none

/-- Integer indexing into a row's data (src/lib.rs lines 1220-1226 with the
`uint` RowIndex impl): resolve the index, then read the column. -/
def indexRow (row : WireRow) (n : Nat) : Option (Option Bytes) :=
  match uintRowIndexIdx n with
  | none => none
  | some k => row.get? k

/-
The extended-query execution pipeline: `NormalPostgresStatement::execute`,
`try_execute`, `try_lazy_query`, `try_query`, and the result stream.
-/

/-- Split a character list at every character satisfying `p`, keeping empty
segments, as Rust's `str::split` iterator does (src/lib.rs line 1021 uses
`tag.split(' ')`). -/
def splitBy (p : Char → Bool) : List Char → List (List Char)
  | [] => [[]]
  | c :: cs =>
    if p c then [] :: splitBy p cs
    else
      match splitBy p cs with
      | [] => [[c]]
      | seg :: segs => (c :: seg) :: segs

/-- Decimal `uint` parse, `FromStr::from_str::<uint>` of the Rust standard
library as applied in src/lib.rs line 1022: an optional leading `'+'`, then
at least one decimal digit and nothing else; `none` for any other character
and when the value exceeds the 64-bit range of `uint` (`from_str` detects
overflow and yields `None`). -/
def fromStrUint (s : List Char) : Option Nat :=
  let digits :=
    match s with
    | '+' :: rest => rest
    | _ => s
  if digits ≠ [] ∧ digits.all Char.isDigit then
    let v := digits.foldl (fun a c => 10 * a + (c.toNat - 48)) 0
    if v < 18446744073709551616 then some v else none
  else none

/-- Rows-affected count parsed from a `CommandComplete` tag
(src/lib.rs lines 1020-1026): the last segment of `tag.split(' ')`
(`split` always yields at least one segment, so the `unwrap` never fails),
parsed as `uint`, defaulting to 0. -/
def commandCompleteRows (tag : String) : Nat :=
  let s := (splitBy (fun c => c = ' ') tag.data).getLastD []
  match fromStrUint s with
  | none => 0
  | some n => n

/-- Prepared statement handle, from `struct NormalPostgresStatement`
(src/lib.rs lines 903-909).  Parameter and result types are carried as
type OIDs; the codec registry is external. -/
structure NormalPostgresStatement where
  stmtName : String
  paramTypes : List Nat
  resultDesc : List (String × Nat)
  nextPortalId : Nat
  deriving DecidableEq, Repr

/-- A parameter already encoded by the external `ToSql` codec: the format
code and the nullable value bytes that `param.to_sql(ty)` produced. -/
abbrev SqlParam := Int × Option Bytes

/-- Modelled from the spec: `PostgresType::result_format` of the `types`
module (not under src/), the per-result-column format code. -/
def resultFormat (_oid : Nat) : Int := 0

/-- The Bind/Execute/Sync batch written by `NormalPostgresStatement::execute`
(src/lib.rs lines 949-961). -/
def bindExecuteWrites (stmt : NormalPostgresStatement) (portalName : String)
    (rowLimit : Nat) (params : List SqlParam) : List FrontendMessage :=
  [.Bind portalName stmt.stmtName (params.map Prod.fst) (params.map Prod.snd)
      (stmt.resultDesc.map fun d => resultFormat d.2),
   .Execute portalName (Int.ofNat rowLimit),
   .Sync]

/-- Batch writer `NormalPostgresStatement::execute` (src/lib.rs lines 932-971): assert the
parameter arity, write `[Bind, Execute, Sync]`, then read `BindComplete`
(or drain to ready and return the error on `ErrorResponse`).  The arity
`assert!` fires before anything is written to the wire. -/
def stmtExecute (stmt : NormalPostgresStatement) (portalName : String)
    (rowLimit : Nat) (params : List SqlParam) (inp : List BackendMessage)
    (q : List PostgresNotification) :
    List FrontendMessage ×
      Except RunError (Option PostgresDbError × List BackendMessage × List PostgresNotification) :=
  if stmt.paramTypes.length = params.length then
    let writes := bindExecuteWrites stmt portalName rowLimit params
    match readMessage inp q with
    | .ok (.BindComplete, rest, q2) => (writes, .ok (none, rest, q2))
    | .ok (.ErrorResponse fields, rest, q2) =>
      match waitForReady rest q2 with
      | .ok (rest2, q3) => (writes, .ok (some ⟨fields⟩, rest2, q3))
      | .error e => (writes, .error e)
    | .ok _ => (writes, .error .panicked)
    | .error e => (writes, .error e)
  else ([], .error .assertFailed)

/-- The read loop of `NormalPostgresStatement::try_execute`
(src/lib.rs lines 1012-1037): skip `DataRow`s, stop at `CommandComplete`
(parsing the tag) or `EmptyQueryResponse` (count 0), drain to ready on
`ErrorResponse`, then `wait_for_ready` and return the count.  The fuel
argument (the input length) only makes the recursion structural: each
iteration consumes at least one frame, and with fuel 0 the input is empty,
so the run blocks exactly as `read_message` on no input does. -/
def tryExecuteLoopAux : Nat → List BackendMessage → List PostgresNotification →
    Except RunError (Except PostgresDbError Nat × List BackendMessage × List PostgresNotification)
  | 0, _, _ => .error .blocked
  | fuel + 1, inp, q =>
    match readMessage inp q with
    | .error e => .error e
    | .ok (m, rest, q2) =>
      match m with
      | .DataRow _ => tryExecuteLoopAux fuel rest q2
      | .ErrorResponse fields =>
        match waitForReady rest q2 with
        | .ok (rest2, q3) => .ok (.error ⟨fields⟩, rest2, q3)
        | .error e => .error e
      | .CommandComplete tag =>
        match waitForReady rest q2 with
        | .ok (rest2, q3) => .ok (.ok (commandCompleteRows tag), rest2, q3)
        | .error e => .error e
      | .EmptyQueryResponse =>
        match waitForReady rest q2 with
        | .ok (rest2, q3) => .ok (.ok 0, rest2, q3)
        | .error e => .error e
      | _ => .error .panicked

/-- Execution entry `NormalPostgresStatement::try_execute` (src/lib.rs lines 1005-1038):
`execute("", 0, params)` then the CommandComplete read loop. -/
def tryExecute (stmt : NormalPostgresStatement) (params : List SqlParam)
    (inp : List BackendMessage) (q : List PostgresNotification) :
    List FrontendMessage ×
      Except RunError (Except PostgresDbError Nat × List BackendMessage × List PostgresNotification) :=
  match stmtExecute stmt "" 0 params inp q with
  | (w, .error e) => (w, .error e)
  | (w, .ok (some err, rest, q2)) => (w, .ok (.error err, rest, q2))
  | (w, .ok (none, rest, q2)) => (w, tryExecuteLoopAux rest.length rest q2)

/-- Result stream state, from `struct PostgresResult`
(src/lib.rs lines 1125-1131). -/
structure PostgresResultState where
  portalName : String
  data : List WireRow
  rowLimit : Nat
  moreRows : Bool
  deriving DecidableEq, Repr

/-- Row reader `PostgresResult::read_rows` (src/lib.rs lines 1154-1171): buffer
`DataRow`s, stop with `more_rows = false` on `CommandComplete` or
`EmptyQueryResponse` and with `more_rows = true` on `PortalSuspended`, then
`wait_for_ready`.  The fuel argument (the input length) only makes the
recursion structural, as in `tryExecuteLoopAux`. -/
def readRowsAux : Nat → List BackendMessage → List PostgresNotification →
    PostgresResultState →
    Except RunError (PostgresResultState × List BackendMessage × List PostgresNotification)
  | 0, _, _, _ => .error .blocked
  | fuel + 1, inp, q, st =>
    match readMessage inp q with
    | .error e => .error e
    | .ok (m, rest, q2) =>
      match m with
      | .EmptyQueryResponse =>
        match waitForReady rest q2 with
        | .ok (rest2, q3) => .ok ({ st with moreRows := false }, rest2, q3)
        | .error e => .error e
      | .CommandComplete _ =>
        match waitForReady rest q2 with
        | .ok (rest2, q3) => .ok ({ st with moreRows := false }, rest2, q3)
        | .error e => .error e
      | .PortalSuspended =>
        match waitForReady rest q2 with
        | .ok (rest2, q3) => .ok ({ st with moreRows := true }, rest2, q3)
        | .error e => .error e
      | .DataRow row => readRowsAux fuel rest q2 { st with data := st.data ++ [row] }
      | _ => .error .panicked

/-- Row reader `PostgresResult::read_rows` on the whole available input. -/
def readRows (inp : List BackendMessage) (q : List PostgresNotification)
    (st : PostgresResultState) :
    Except RunError (PostgresResultState × List BackendMessage × List PostgresNotification) :=
  readRowsAux inp.length inp q st

/-- Portal opener `NormalPostgresStatement::try_lazy_query` (src/lib.rs lines 973-993):
allocate the portal name `<stmt>_portal_<k>` from the pre-increment counter,
run `execute`, then build the result stream with `more_rows = true` and
perform the initial `read_rows`. -/
def tryLazyQuery (stmt : NormalPostgresStatement) (rowLimit : Nat)
    (params : List SqlParam) (inp : List BackendMessage)
    (q : List PostgresNotification) :
    List FrontendMessage ×
      Except RunError (Except PostgresDbError PostgresResultState × List BackendMessage × List PostgresNotification) :=
  let portalName := stmt.stmtName ++ "_portal_" ++ toString stmt.nextPortalId
  match stmtExecute stmt portalName rowLimit params inp q with
  | (w, .error e) => (w, .error e)
  | (w, .ok (some err, rest, q2)) => (w, .ok (.error err, rest, q2))
  | (w, .ok (none, rest, q2)) =>
    match readRows rest q2 ⟨portalName, [], rowLimit, true⟩ with
    | .error e => (w, .error e)
    | .ok (st, rest2, q3) => (w, .ok (.ok st, rest2, q3))

/-- Eager query `NormalPostgresStatement::try_query` (src/lib.rs lines 1040-1043):
exactly `try_lazy_query(0, params)`. -/
def tryQuery (stmt : NormalPostgresStatement) (params : List SqlParam)
    (inp : List BackendMessage) (q : List PostgresNotification) :
    List FrontendMessage ×
      Except RunError (Except PostgresDbError PostgresResultState × List BackendMessage × List PostgresNotification) :=
  tryLazyQuery stmt 0 params inp q

/-- Iterator step `Iterator::next` for `PostgresResult` (src/lib.rs lines 1184-1197): if
the buffer is empty and more rows remain, write `[Execute, Sync]` and
`read_rows` again; then pop the front of the buffer.  The last result
component lists the frontend messages written by the call. -/
def nextRow (inp : List BackendMessage) (q : List PostgresNotification)
    (st : PostgresResultState) :
    Except RunError
      (Option WireRow × PostgresResultState × List BackendMessage ×
        List PostgresNotification × List FrontendMessage) :=
  if st.data.isEmpty && st.moreRows then
    let w := [.Execute st.portalName (Int.ofNat st.rowLimit), FrontendMessage.Sync]
    match readRows inp q st with
    | .error e => .error e
    | .ok (st2, rest, q2) =>
      .ok (st2.data.head?, { st2 with data := st2.data.tail }, rest, q2, w)
  else
    .ok (st.data.head?, { st with data := st.data.tail }, inp, q, [])

/-- Modelled from the spec: a conforming backend's reply to
`Execute(portal, max_rows)` on a portal holding `rows`, followed by the
`ReadyForQuery` fence after `Sync`.  With `max_rows = 0` or enough rows
remaining, all rows and `CommandComplete`; otherwise a batch of `max_rows`
rows ending in `PortalSuspended`. -/
def serverExecuteFrames (rows : List WireRow) (maxRows : Nat) : List BackendMessage :=
  if maxRows = 0 ∨ rows.length ≤ maxRows then
    rows.map .DataRow ++ [.CommandComplete "SELECT", .ReadyForQuery]
  else
    (rows.take maxRows).map .DataRow ++ [.PortalSuspended, .ReadyForQuery]

/-- Front dequeue of the notification queue,
`RingBuf::pop_front` as used by the notifications iterator
(src/lib.rs lines 183-185). -/
def popFront (q : List PostgresNotification) :
    Option PostgresNotification × List PostgresNotification :=
  (q.head?, q.tail)

/-- Observation of the whole notification queue by repeatedly calling the
notifications iterator until it yields `None`.  The fuel (the queue length)
only makes the recursion structural. -/
def observeAllAux : Nat → List PostgresNotification → List PostgresNotification
  | 0, _ => []
  | fuel + 1, q =>
    match popFront q with
    | (none, _) => []
    | (some n, q2) => n :: observeAllAux fuel q2

/-- Everything the application observes by draining the notifications
iterator. -/
def observeAll (q : List PostgresNotification) : List PostgresNotification :=
  observeAllAux q.length q

/-
Helper lemmas.
-/

theorem splitBy_ne_nil (p : Char → Bool) (l : List Char) : splitBy p l ≠ [] := by
  cases l with
  | nil => simp [splitBy]
  | cons c cs =>
    by_cases h : p c
    · simp [splitBy, h]
    · rcases hs : splitBy p cs with _ | ⟨seg, segs⟩ <;> simp [splitBy, h, hs]

theorem splitBy_all_none (p : Char → Bool) (l : List Char)
    (h : l.all (fun c => !(p c)) = true) : splitBy p l = [l] := by
  induction l with
  | nil => simp [splitBy]
  | cons c cs ih =>
    rw [List.all_cons, Bool.and_eq_true] at h
    obtain ⟨hc, hcs⟩ := h
    rw [Bool.not_eq_true'] at hc
    simp [splitBy, hc, ih hcs]

theorem splitBy_singleton (p : Char → Bool) (l : List Char) (seg : List Char)
    (h : splitBy p l = [seg]) : seg = l ∧ l.all (fun c => !(p c)) = true := by
  induction l generalizing seg with
  | nil =>
    simp only [splitBy, List.cons.injEq, and_true] at h
    simp [← h]
  | cons c cs ih =>
    by_cases hc : p c
    · rw [splitBy, if_pos hc] at h
      injection h with h1 h2
      exact absurd h2 (splitBy_ne_nil p cs)
    · rw [splitBy, if_neg hc] at h
      rcases hs : splitBy p cs with _ | ⟨s, ss⟩
      · exact absurd hs (splitBy_ne_nil p cs)
      · rw [hs] at h
        injection h with h1 h2
        subst h1
        subst h2
        obtain ⟨h3, h4⟩ := ih s hs
        subst h3
        have hc2 : p c = false := by simpa using hc
        simp [List.all_cons, hc2, h4]

theorem takeWhile_append_one (q : Char → Bool) (l : List Char) (a : Char) :
    (l ++ [a]).takeWhile q =
      if l.all q then l ++ [a].takeWhile q else l.takeWhile q := by
  induction l with
  | nil => simp
  | cons x l ih =>
    by_cases hx : q x
    · simp only [List.cons_append, List.takeWhile_cons, hx, List.all_cons, ih]
      by_cases hl : l.all q <;> simp [hl, hx]
    · simp [List.takeWhile_cons, hx, List.all_cons]

theorem takeWhile_of_all (q : Char → Bool) (l : List Char)
    (h : l.all q = true) : l.takeWhile q = l := by
  induction l with
  | nil => simp
  | cons x l ih =>
    rw [List.all_cons, Bool.and_eq_true] at h
    simp [List.takeWhile_cons, h.1, ih h.2]

/-- The last segment of splitting at `p`-characters is the reversed longest
suffix free of `p`-characters: what stands after the last separator. -/
theorem getLastD_splitBy (p : Char → Bool) (l : List Char) :
    (splitBy p l).getLastD [] = (l.reverse.takeWhile (fun c => !(p c))).reverse := by
  induction l with
  | nil => simp [splitBy]
  | cons c cs ih =>
    by_cases hc : p c
    · have hca : [c].takeWhile (fun c => !(p c)) = [] := by
        simp [List.takeWhile_cons, hc]
      rw [splitBy, if_pos hc, List.getLastD_cons, ih, List.reverse_cons,
        takeWhile_append_one]
      by_cases hall : cs.reverse.all (fun c => !(p c)) = true
      · rw [if_pos hall, hca, List.append_nil, takeWhile_of_all _ _ hall]
      · rw [if_neg hall]
    · have hc2 : p c = false := by simpa using hc
      rw [splitBy, if_neg hc]
      rcases hs : splitBy p cs with _ | ⟨seg, segs⟩
      · exact absurd hs (splitBy_ne_nil p cs)
      · rw [List.getLastD_cons]
        rcases segs with _ | ⟨s, ss⟩
        · obtain ⟨h1, h2⟩ := splitBy_singleton p cs seg hs
          subst h1
          have hrev : seg.reverse.all (fun c => !(p c)) = true := by
            rw [List.all_reverse]; exact h2
          have hone : [c].takeWhile (fun c => !(p c)) = [c] := by
            simp [List.takeWhile_cons, hc2]
          rw [List.getLastD_nil, List.reverse_cons, takeWhile_append_one,
            if_pos hrev, hone]
          simp
        · have hnall : cs.reverse.all (fun c => !(p c)) = false := by
          { rcases h : cs.reverse.all (fun c => !(p c)) with _ | _
            · rfl
            · rw [List.all_reverse] at h
              rw [splitBy_all_none p cs h] at hs
              cases hs }
          rw [hs, List.getLastD_cons, List.getLastD_cons] at ih
          rw [List.getLastD_cons, List.reverse_cons, takeWhile_append_one, hnall]
          simpa using ih

theorem tryExecuteLoopAux_data (rows : List WireRow) (tag : String)
    (rest : List BackendMessage) (q : List PostgresNotification) :
    tryExecuteLoopAux (rows.length + (rest.length + 1))
        (rows.map .DataRow ++ .CommandComplete tag :: rest) q =
      match waitForReady rest q with
      | .ok (rest2, q3) => .ok (.ok (commandCompleteRows tag), rest2, q3)
      | .error e => .error e := by
  induction rows generalizing q with
  | nil => simp [tryExecuteLoopAux, readMessage]
  | cons r rows ih =>
    have : (r :: rows).length + (rest.length + 1) =
        (rows.length + (rest.length + 1)) + 1 := by simp; omega
    rw [this]
    simp only [List.map_cons, List.cons_append, tryExecuteLoopAux, readMessage]
    exact ih q

theorem readRowsAux_data (rows : List WireRow) (tag : String)
    (rest : List BackendMessage) (q : List PostgresNotification)
    (st : PostgresResultState) :
    readRowsAux (rows.length + (rest.length + 1))
        (rows.map .DataRow ++ .CommandComplete tag :: rest) q st =
      match waitForReady rest q with
      | .ok (rest2, q3) =>
          .ok ({ st with data := st.data ++ rows, moreRows := false }, rest2, q3)
      | .error e => .error e := by
  induction rows generalizing q st with
  | nil => simp [readRowsAux, readMessage]
  | cons r rows ih =>
    have hstep : (r :: rows).length + (rest.length + 1) =
        Nat.succ (rows.length + (rest.length + 1)) := by
      simp [List.length_cons]; omega
    rw [hstep, readRowsAux.eq_2, List.map_cons, List.cons_append,
      readMessage_cons (.DataRow r) _ q rfl]
    dsimp only
    rw [ih]
    rcases waitForReady rest q with e | ⟨rest2, q3⟩ <;> simp

theorem tryExecuteLoopAux_ne_assert (fuel : Nat) (inp : List BackendMessage)
    (q : List PostgresNotification) :
    tryExecuteLoopAux fuel inp q ≠ .error .assertFailed := by
  induction fuel generalizing inp q with
  | zero => simp [tryExecuteLoopAux]
  | succ fuel ih =>
    unfold tryExecuteLoopAux
    rcases hr : readMessage inp q with e | ⟨m, rest, q2⟩
    · intro hc
      simp at hc
      exact readMessage_ne_assert inp q (by rw [hr, hc])
    · cases m <;> simp only []
      case DataRow => exact ih rest q2
      all_goals
        first
          | (rcases hw : waitForReady rest q2 with e | ⟨rest2, q3⟩
             · intro hc
               simp at hc
               exact waitForReady_ne_assert rest q2 (by rw [hw, hc])
             · simp)
          | simp

theorem readRowsAux_ne_assert (fuel : Nat) (inp : List BackendMessage)
    (q : List PostgresNotification) (st : PostgresResultState) :
    readRowsAux fuel inp q st ≠ .error .assertFailed := by
  induction fuel generalizing inp q st with
  | zero => simp [readRowsAux]
  | succ fuel ih =>
    unfold readRowsAux
    rcases hr : readMessage inp q with e | ⟨m, rest, q2⟩
    · intro hc
      simp at hc
      exact readMessage_ne_assert inp q (by rw [hr, hc])
    · cases m <;> simp only []
      case DataRow row => exact ih rest q2 _
      all_goals
        first
          | (rcases hw : waitForReady rest q2 with e | ⟨rest2, q3⟩
             · intro hc
               simp at hc
               exact waitForReady_ne_assert rest q2 (by rw [hw, hc])
             · simp)
          | simp

/-
Spec-side definitions for the CommandComplete tag parse, written from the
words of the claims rather than from the source.
-/

/-- Spec-side: the maximal nonempty whitespace-separated tokens of a tag. -/
def specWhitespaceTokens (tag : String) : List (List Char) :=
  (splitBy Char.isWhitespace tag.data).filter (fun seg => !seg.isEmpty)

/-- Spec-side: the last whitespace-separated token of a tag, when any. -/
def specLastWhitespaceToken (tag : String) : Option (List Char) :=
  (specWhitespaceTokens tag).getLast?

/-- Spec-side reading of the claim's words "is a non-negative decimal integer
N": a nonempty string of decimal digits, valued as written. -/
def decimalOfDigits (s : List Char) : Option Nat :=
  if s ≠ [] ∧ s.all Char.isDigit then
    some (s.foldl (fun a c => 10 * a + (c.toNat - 48)) 0)
  else none

/-- Spec-side reading of the claim: if the last whitespace-separated token is
a non-negative decimal integer N, the count is N; otherwise 0. -/
def specRowsAffected (tag : String) : Nat :=
  match specLastWhitespaceToken tag with
  | some t => (decimalOfDigits t).getD 0
  | none => 0

/-- Spec-side amended reading: the characters of the tag after its last space
character (the whole tag when it has no space). -/
def specLastSpaceSegment (tag : String) : List Char :=
  (tag.data.reverse.takeWhile (fun c => !(c = ' '))).reverse

/-- Spec-side amended rows-affected count: the segment after the last space,
parsed as the program parses it (`from_str::<uint>`: optional leading `'+'`,
decimal digits, within the 64-bit range), defaulting to 0. -/
def specAmendedRows (tag : String) : Nat :=
  (fromStrUint (specLastSpaceSegment tag)).getD 0

theorem commandCompleteRows_eq_amended (tag : String) :
    commandCompleteRows tag = specAmendedRows tag := by
  unfold commandCompleteRows specAmendedRows specLastSpaceSegment
  rw [getLastD_splitBy]
  rcases h : fromStrUint ((tag.data.reverse.takeWhile (fun c => !(c = ' '))).reverse) with
    _ | n <;> simp [h]

theorem observeAllAux_len (q : List PostgresNotification) :
    observeAllAux q.length q = q := by
  induction q with
  | nil => rfl
  | cons n rest ih => simp [observeAllAux, popFront, ih]

/-
The claims.
-/

/-- C1 is corrected: `wait_for_ready` does not scan arbitrary frames until a
`ReadyForQuery` appears.  It makes one `read_message` call (which absorbs
async frames) and hits `unreachable!` when the first synchronous frame is
not `ReadyForQuery`.  Here the input holds a `ReadyForQuery` (after a
`NoData` frame), yet the run panics instead of returning. -/
theorem c1_wait_for_ready_counterexample :
    waitForReady [.NoData, .ReadyForQuery] [] = .error .panicked ∧
    BackendMessage.ReadyForQuery ∈
      [BackendMessage.NoData, BackendMessage.ReadyForQuery] :=
  ⟨rfl, by decide⟩

/-- C1 (amended): for every frame sequence whose first non-async frame is
`ReadyForQuery`, `wait_for_ready` absorbs the async prefix via
`read_message` (enqueueing its notifications), consumes the `ReadyForQuery`,
and returns with the connection Ready; on any other first non-async frame it
panics (`unreachable!`). -/
theorem c1_wait_for_ready_amended :
    (∀ (pre rest : List BackendMessage) (q : List PostgresNotification),
      pre.all isAsync = true →
      waitForReady (pre ++ .ReadyForQuery :: rest) q = .ok (rest, q ++ notifsOf pre)) ∧
    (∀ (pre rest : List BackendMessage) (m : BackendMessage)
        (q : List PostgresNotification),
      pre.all isAsync = true → isAsync m = false → m ≠ .ReadyForQuery →
      waitForReady (pre ++ m :: rest) q = .error .panicked) := by
  constructor
  · intro pre rest q h
    unfold waitForReady
    rw [readMessage_skips_async pre h .ReadyForQuery rest q rfl]
  · intro pre rest m q h hm hne
    unfold waitForReady
    rw [readMessage_skips_async pre h m rest q hm]
    cases m <;> first | (exact absurd rfl hne) | rfl

/-- C1 witness: concrete runs of both parts of the amended statement. -/
theorem c1_wait_for_ready_witness :
    waitForReady ([.NotificationResponse 5 "ch" "pl"] ++ .ReadyForQuery :: [.NoData]) [] =
      .ok ([.NoData], [] ++ notifsOf [.NotificationResponse 5 "ch" "pl"]) ∧
    waitForReady ([.ParameterStatus "a" "b"] ++ .CommandComplete "t" :: []) [] =
      .error .panicked :=
  ⟨c1_wait_for_ready_amended.1 [.NotificationResponse 5 "ch" "pl"] [.NoData] []
      (by decide),
   c1_wait_for_ready_amended.2 [.ParameterStatus "a" "b"] [] (.CommandComplete "t") []
      (by decide) (by decide) (by decide)⟩

/-- C2 is corrected: the source splits the tag at single space characters
(`tag.split(' ')`) and parses the final segment, which differs from "last
whitespace-separated token" on tags holding other whitespace.  For the tag
`"MOVE\t42"` the last whitespace-separated token is `"42"` (value 42), but
`try_execute` returns 0, because the space-split leaves one segment
`"MOVE\t42"`, which does not parse. -/
theorem c2_command_complete_counterexample :
    (tryExecute ⟨"statement_0", [], [], 0⟩ []
        [.BindComplete, .CommandComplete "MOVE\t42", .ReadyForQuery] []).2 =
      .ok (.ok 0, [], []) ∧
    specRowsAffected "MOVE\t42" = 42 ∧ (0 : Nat) ≠ 42 :=
  ⟨rfl, by decide, by decide⟩

/-- C2 (amended): for every CommandComplete tag received by `try_execute`,
the rows-affected count is determined by the characters after the last
space character of the tag (the whole tag when it has no space): if they
parse as a non-negative decimal integer N under `from_str::<uint>` (an
optional leading `'+'`, then decimal digits, within the 64-bit range of
`uint`) the call returns N, otherwise (including `EmptyQueryResponse`) it
returns 0. -/
theorem c2_command_complete_amended :
    (∀ (stmt : NormalPostgresStatement) (params : List SqlParam)
        (rows : List WireRow) (tag : String) (q : List PostgresNotification),
      stmt.paramTypes.length = params.length →
      (tryExecute stmt params
          (.BindComplete :: (rows.map .DataRow ++ [.CommandComplete tag, .ReadyForQuery]))
          q).2 =
        .ok (.ok (specAmendedRows tag), [], q)) ∧
    (∀ (stmt : NormalPostgresStatement) (params : List SqlParam)
        (q : List PostgresNotification),
      stmt.paramTypes.length = params.length →
      (tryExecute stmt params [.BindComplete, .EmptyQueryResponse, .ReadyForQuery] q).2 =
        .ok (.ok 0, [], q)) := by
  constructor
  · intro stmt params rows tag q h
    unfold tryExecute stmtExecute
    rw [if_pos h, readMessage_cons .BindComplete _ q rfl]
    dsimp only
    have hlen : (rows.map BackendMessage.DataRow ++
        [BackendMessage.CommandComplete tag, BackendMessage.ReadyForQuery]).length =
        rows.length + ([BackendMessage.ReadyForQuery].length + 1) := by
      simp
    rw [hlen, tryExecuteLoopAux_data rows tag [.ReadyForQuery] q]
    rw [show waitForReady [.ReadyForQuery] q = .ok ([], q) from rfl]
    rw [commandCompleteRows_eq_amended]
  · intro stmt params q h
    unfold tryExecute stmtExecute
    rw [if_pos h, readMessage_cons .BindComplete _ q rfl]
    dsimp only
    rfl

/-- C2 witness: concrete runs of the amended statement — a plain
`INSERT 0 3` tag, a `'+'`-prefixed count (parsed, per `from_str`), and a
count beyond the 64-bit range of `uint` (rejected, so 0). -/
theorem c2_command_complete_witness :
    (tryExecute ⟨"statement_0", [], [], 0⟩ []
        (.BindComplete :: ([[some [49]]].map .DataRow ++
          [.CommandComplete "INSERT 0 3", .ReadyForQuery])) []).2 =
      .ok (.ok 3, [], []) ∧
    (tryExecute ⟨"statement_0", [], [], 0⟩ []
        (.BindComplete :: (([] : List WireRow).map .DataRow ++
          [.CommandComplete "MOVE +42", .ReadyForQuery])) []).2 =
      .ok (.ok 42, [], []) ∧
    (tryExecute ⟨"statement_0", [], [], 0⟩ []
        (.BindComplete :: (([] : List WireRow).map .DataRow ++
          [.CommandComplete "SELECT 99999999999999999999", .ReadyForQuery])) []).2 =
      .ok (.ok 0, [], []) := by
  refine ⟨?_, ?_, ?_⟩
  · have h := c2_command_complete_amended.1 ⟨"statement_0", [], [], 0⟩ []
      [[some [49]]] "INSERT 0 3" [] rfl
    rw [h]
    rfl
  · have h := c2_command_complete_amended.1 ⟨"statement_0", [], [], 0⟩ []
      [] "MOVE +42" [] rfl
    rw [h]
    rfl
  · have h := c2_command_complete_amended.1 ⟨"statement_0", [], [], 0⟩ []
      [] "SELECT 99999999999999999999" [] rfl
    rw [h]
    rfl

theorem hasher_fresh_final (a : Bytes) :
    (Hasher.fresh.update a).finalBytes = md5 a :=
  congrArg md5 (List.nil_append a)

theorem hasher_fresh_update_final (a b : Bytes) :
    ((Hasher.fresh.update a).update b).finalBytes = md5 (a ++ b) :=
  congrArg md5 (congrArg (fun x => x ++ b) (List.nil_append a))

/-- C3 (confirmed): the PasswordMessage body sent for
`AuthenticationMD5Password` equals
`md5 || hex(md5(hex(md5(password || user)) || salt))`, and in particular for
user `"u"`, password `"p"`, salt `[0x00,0x01,0x02,0x03]` it equals
`"md5" || hex(md5(hex(md5("pu")) || [0x00,0x01,0x02,0x03]))`. -/
theorem c3_md5_password :
    (∀ (user pass : String) (salt : Bytes),
      clientMd5Password user pass salt = specMd5Password user pass salt) ∧
    clientMd5Password "u" "p" [0x00, 0x01, 0x02, 0x03] =
      "md5" ++ toHexStr (md5 (strBytes (toHexStr (md5 (strBytes "pu"))) ++
        [0x00, 0x01, 0x02, 0x03])) := by
  have hgen : ∀ (user pass : String) (salt : Bytes),
      clientMd5Password user pass salt = specMd5Password user pass salt := by
    intro user pass salt
    simp only [clientMd5Password, specMd5Password]
    rw [hasher_fresh_final, hasher_fresh_update_final]
  refine ⟨hgen, ?_⟩
  rw [hgen "u" "p" [0x00, 0x01, 0x02, 0x03]]
  unfold specMd5Password
  rw [show ("p" ++ "u" : String) = "pu" from rfl]

/-- C4 (confirmed): on drop, a transaction handle issues ROLLBACK (top-level)
or ROLLBACK TO sp (nested) exactly when the task is unwinding or the commit
flag is false, and COMMIT / RELEASE sp otherwise; the commit decision equals
`commit AND NOT task_is_unwinding`. -/
theorem c4_transaction_drop :
    (∀ (failing : Bool) (t : PostgresTransaction),
      transactionDropQuery failing t =
        if t.commit && !failing then
          (if t.nested then "RELEASE sp" else "COMMIT")
        else
          (if t.nested then "ROLLBACK TO sp" else "ROLLBACK")) ∧
    (∀ (failing : Bool) (t : PostgresTransaction),
      (transactionDropQuery failing t = "COMMIT" ∨
        transactionDropQuery failing t = "RELEASE sp") ↔
        (t.commit && !failing) = true) := by
  constructor <;>
    · intro failing t
      rcases t with ⟨c, n⟩
      cases failing <;> cases c <;> cases n <;> decide

/-- C5 (confirmed): `try_query` is literally `try_lazy_query(0, params)`;
against a conforming backend reply to `Execute(max_rows = 0)` the initial
fetch buffers every row with `more_rows = false`, a result iterator whose
state has `more_rows = false` never writes a further Execute, and the
conforming reply to `max_rows = 0` holds no `PortalSuspended` frame. -/
theorem c5_row_limit_zero :
    (∀ (stmt : NormalPostgresStatement) (params : List SqlParam)
        (inp : List BackendMessage) (q : List PostgresNotification),
      tryQuery stmt params inp q = tryLazyQuery stmt 0 params inp q) ∧
    (∀ (stmt : NormalPostgresStatement) (params : List SqlParam)
        (rows : List WireRow) (q : List PostgresNotification),
      stmt.paramTypes.length = params.length →
      tryLazyQuery stmt 0 params (.BindComplete :: serverExecuteFrames rows 0) q =
        (bindExecuteWrites stmt
            (stmt.stmtName ++ "_portal_" ++ toString stmt.nextPortalId) 0 params,
         .ok (.ok ⟨stmt.stmtName ++ "_portal_" ++ toString stmt.nextPortalId,
            rows, 0, false⟩, [], q))) ∧
    (∀ (inp : List BackendMessage) (q : List PostgresNotification)
        (st : PostgresResultState),
      st.moreRows = false →
      nextRow inp q st = .ok (st.data.head?, { st with data := st.data.tail }, inp, q, [])) ∧
    (∀ rows : List WireRow,
      BackendMessage.PortalSuspended ∉ serverExecuteFrames rows 0) := by
  refine ⟨?_, ?_, ?_, ?_⟩
  · intro stmt params inp q
    rfl
  · intro stmt params rows q h
    unfold tryLazyQuery stmtExecute
    dsimp only
    rw [if_pos h, readMessage_cons .BindComplete _ q rfl]
    dsimp only
    unfold readRows serverExecuteFrames
    rw [if_pos (Or.inl rfl)]
    have hlen : (rows.map BackendMessage.DataRow ++
        [BackendMessage.CommandComplete "SELECT", BackendMessage.ReadyForQuery]).length =
        rows.length + ([BackendMessage.ReadyForQuery].length + 1) := by
      simp
    rw [hlen, readRowsAux_data rows "SELECT" [.ReadyForQuery] q _]
    rw [show waitForReady [.ReadyForQuery] q = .ok ([], q) from rfl]
    dsimp only
    simp
  · intro inp q st h
    unfold nextRow
    simp [h]
  · intro rows
    unfold serverExecuteFrames
    rw [if_pos (Or.inl rfl)]
    simp

/-- C5 witness: a two-row eager query against the conforming backend reply,
and an iterator step on an exhausted-portal state. -/
theorem c5_row_limit_zero_witness :
    tryLazyQuery ⟨"statement_0", [], [], 0⟩ 0 []
        (.BindComplete :: serverExecuteFrames [[some [49]], [none]] 0) [] =
      (bindExecuteWrites ⟨"statement_0", [], [], 0⟩
          ("statement_0" ++ "_portal_" ++ toString (0 : Nat)) 0 [],
       .ok (.ok ⟨"statement_0" ++ "_portal_" ++ toString (0 : Nat),
          [[some [49]], [none]], 0, false⟩, [], [])) ∧
    nextRow [] [] ⟨"p", [[some [50]]], 0, false⟩ =
      .ok (some [some [50]], ⟨"p", [], 0, false⟩, [], [], []) := by
  constructor
  · exact c5_row_limit_zero.2.1 ⟨"statement_0", [], [], 0⟩ [] [[some [49]], [none]] [] rfl
  · have h := c5_row_limit_zero.2.2.1 [] [] ⟨"p", [[some [50]]], 0, false⟩ rfl
    simpa using h

/-- C6 (confirmed): every `NotificationResponse` absorbed during a
`read_message` call is appended at the back of the notification queue in
frame order, and draining the notifications iterator (which pops the front)
observes the queue exactly in that order. -/
theorem c6_notifications_fifo :
    (∀ (pre : List BackendMessage) (m : BackendMessage)
        (rest : List BackendMessage) (q : List PostgresNotification),
      pre.all isAsync = true → isAsync m = false →
      readMessage (pre ++ m :: rest) q = .ok (m, rest, q ++ notifsOf pre)) ∧
    (∀ q : List PostgresNotification, observeAll q = q) := by
  constructor
  · intro pre m rest q h hm
    exact readMessage_skips_async pre h m rest q hm
  · intro q
    exact observeAllAux_len q

/-- C6 witness: a concrete read absorbing one notification, enqueued behind
the already-pending queue. -/
theorem c6_notifications_fifo_witness :
    readMessage ([.ParameterStatus "k" "v", .NotificationResponse 7 "chan" "load"] ++
        .ReadyForQuery :: []) [⟨1, "a", "b"⟩] =
      .ok (.ReadyForQuery, [],
        [⟨1, "a", "b"⟩] ++ notifsOf
          [.ParameterStatus "k" "v", .NotificationResponse 7 "chan" "load"]) :=
  c6_notifications_fifo.1
    [.ParameterStatus "k" "v", .NotificationResponse 7 "chan" "load"]
    .ReadyForQuery [] [⟨1, "a", "b"⟩] (by decide) (by decide)

/-- C7 (confirmed): with mode none no SslRequest is sent and the stream stays
plain; with prefer a reply of `N` falls back to the plain stream; with
require a reply of `N` fails with `NoSslSupport`; on any other reply byte a
TLS handshake is attempted, yielding the SSL stream on success and
`SslError` on failure. -/
theorem c7_ssl_modes :
    (∀ (r : Nat) (hs : Except Nat Unit),
      initStream .NoSsl r hs = ([], .ok .Normal)) ∧
    (∀ hs : Except Nat Unit,
      initStream .PreferSsl 78 hs = ([.SslRequest sslCode], .ok .Normal)) ∧
    (∀ hs : Except Nat Unit,
      initStream .RequireSsl 78 hs = ([.SslRequest sslCode], .error .noSslSupport)) ∧
    (∀ (mode : SslMode) (r : Nat) (e : Nat), mode ≠ .NoSsl → r ≠ 78 →
      initStream mode r (.error e) = ([.SslRequest sslCode], .error (.sslError e))) ∧
    (∀ (mode : SslMode) (r : Nat), mode ≠ .NoSsl → r ≠ 78 →
      initStream mode r (.ok ()) = ([.SslRequest sslCode], .ok .Ssl)) := by
  refine ⟨fun r hs => rfl, fun hs => rfl, fun hs => rfl, ?_, ?_⟩
  · intro mode r e hmode hr
    cases mode
    · exact absurd rfl hmode
    · simp [initStream, hr]
    · simp [initStream, hr]
  · intro mode r hmode hr
    cases mode
    · exact absurd rfl hmode
    · simp [initStream, hr]
    · simp [initStream, hr]

/-- C7 witness: an `S` reply (byte 83) under require with a failing
handshake, and under prefer with a succeeding one. -/
theorem c7_ssl_modes_witness :
    initStream .RequireSsl 83 (.error 1) = ([.SslRequest sslCode], .error (.sslError 1)) ∧
    initStream .PreferSsl 83 (.ok ()) = ([.SslRequest sslCode], .ok .Ssl) :=
  ⟨c7_ssl_modes.2.2.2.1 .RequireSsl 83 1 (by decide) (by decide),
   c7_ssl_modes.2.2.2.2 .PreferSsl 83 (by decide) (by decide)⟩

/-- C8 (confirmed): row integer indexing is 1-based and lower-bound checked:
index 0 (and any non-positive signed index) panics, and every index
`i ≥ 1` resolves to the internal column position `i - 1`. -/
theorem c8_row_index_one_based :
    uintRowIndexIdx 0 = none ∧
    (∀ i : Int, i ≤ 0 → intRowIndexIdx i = none) ∧
    (∀ n : Nat, 1 ≤ n → uintRowIndexIdx n = some (n - 1)) ∧
    (∀ i : Int, 1 ≤ i → intRowIndexIdx i = some (i - 1).toNat) ∧
    (∀ (row : WireRow) (n : Nat), 1 ≤ n → indexRow row n = row.get? (n - 1)) := by
  refine ⟨rfl, ?_, ?_, ?_, ?_⟩
  · intro i h
    unfold intRowIndexIdx
    rw [if_neg (by omega)]
  · intro n h
    unfold uintRowIndexIdx
    rw [if_neg (by omega)]
  · intro i h
    unfold intRowIndexIdx
    rw [if_pos h]
  · intro row n h
    unfold indexRow uintRowIndexIdx
    rw [if_neg (by omega)]

/-- C8 witness: concrete in-range and out-of-range indexes. -/
theorem c8_row_index_witness :
    intRowIndexIdx (-3) = none ∧ uintRowIndexIdx 5 = some 4 ∧
    intRowIndexIdx 2 = some 1 ∧
    indexRow [some [1], none] 2 = [some [1], none].get? 1 :=
  ⟨c8_row_index_one_based.2.1 (-3) (by decide),
   c8_row_index_one_based.2.2.1 5 (by decide),
   c8_row_index_one_based.2.2.2.1 2 (by decide),
   c8_row_index_one_based.2.2.2.2 [some [1], none] 2 (by decide)⟩

/-- C9 (confirmed): an arity mismatch between the supplied parameters and the
statement's parameter types makes `execute` — and hence `try_execute`,
`try_lazy_query` and `try_query` — fail the `assert!` before writing
anything to the wire, while matching arities never fail that assert. -/
theorem c9_arity_panic :
    (∀ (stmt : NormalPostgresStatement) (portalName : String) (rowLimit : Nat)
        (params : List SqlParam) (inp : List BackendMessage)
        (q : List PostgresNotification),
      stmt.paramTypes.length ≠ params.length →
      stmtExecute stmt portalName rowLimit params inp q = ([], .error .assertFailed)) ∧
    (∀ (stmt : NormalPostgresStatement) (params : List SqlParam)
        (inp : List BackendMessage) (q : List PostgresNotification),
      stmt.paramTypes.length ≠ params.length →
      tryExecute stmt params inp q = ([], .error .assertFailed)) ∧
    (∀ (stmt : NormalPostgresStatement) (rowLimit : Nat) (params : List SqlParam)
        (inp : List BackendMessage) (q : List PostgresNotification),
      stmt.paramTypes.length ≠ params.length →
      tryLazyQuery stmt rowLimit params inp q = ([], .error .assertFailed)) ∧
    (∀ (stmt : NormalPostgresStatement) (params : List SqlParam)
        (inp : List BackendMessage) (q : List PostgresNotification),
      stmt.paramTypes.length ≠ params.length →
      tryQuery stmt params inp q = ([], .error .assertFailed)) ∧
    (∀ (stmt : NormalPostgresStatement) (params : List SqlParam)
        (inp : List BackendMessage) (q : List PostgresNotification),
      stmt.paramTypes.length = params.length →
      (tryExecute stmt params inp q).2 ≠ .error .assertFailed) ∧
    (∀ (stmt : NormalPostgresStatement) (rowLimit : Nat) (params : List SqlParam)
        (inp : List BackendMessage) (q : List PostgresNotification),
      stmt.paramTypes.length = params.length →
      (tryLazyQuery stmt rowLimit params inp q).2 ≠ .error .assertFailed) := by
  have hstmt : ∀ (stmt : NormalPostgresStatement) (portalName : String)
      (rowLimit : Nat) (params : List SqlParam) (inp : List BackendMessage)
      (q : List PostgresNotification),
      stmt.paramTypes.length ≠ params.length →
      stmtExecute stmt portalName rowLimit params inp q = ([], .error .assertFailed) := by
    intro stmt portalName rowLimit params inp q h
    unfold stmtExecute
    rw [if_neg h]
  have hsnd : ∀ (stmt : NormalPostgresStatement) (portalName : String)
      (rowLimit : Nat) (params : List SqlParam) (inp : List BackendMessage)
      (q : List PostgresNotification),
      stmt.paramTypes.length = params.length →
      (stmtExecute stmt portalName rowLimit params inp q).2 ≠ .error .assertFailed := by
    intro stmt portalName rowLimit params inp q h
    unfold stmtExecute
    rw [if_pos h]
    rcases hr : readMessage inp q with e | ⟨m, rest, q2⟩
    · dsimp only
      intro hc
      simp at hc
      exact readMessage_ne_assert inp q (by rw [hr, hc])
    · cases m <;> dsimp only
      case ErrorResponse fields =>
        rcases hw : waitForReady rest q2 with e2 | ⟨rest2, q3⟩ <;> dsimp only
        · intro hc
          simp at hc
          exact waitForReady_ne_assert rest q2 (by rw [hw, hc])
        · simp
      all_goals simp
  refine ⟨hstmt, ?_, ?_, ?_, ?_, ?_⟩
  · intro stmt params inp q h
    unfold tryExecute
    rw [hstmt stmt "" 0 params inp q h]
  · intro stmt rowLimit params inp q h
    unfold tryLazyQuery
    dsimp only
    rw [hstmt stmt (stmt.stmtName ++ "_portal_" ++ toString stmt.nextPortalId)
      rowLimit params inp q h]
  · intro stmt params inp q h
    unfold tryQuery tryLazyQuery
    dsimp only
    rw [hstmt stmt (stmt.stmtName ++ "_portal_" ++ toString stmt.nextPortalId)
      0 params inp q h]
  · intro stmt params inp q h
    unfold tryExecute
    rcases hse : stmtExecute stmt "" 0 params inp q with ⟨w, res⟩
    rcases res with e | ⟨opt, rest, q2⟩ <;> try dsimp only
    · intro hc
      simp at hc
      have h2 := hsnd stmt "" 0 params inp q h
      rw [hse] at h2
      simp at h2
      exact h2 hc
    · rcases opt with _ | err <;> dsimp only
      · exact tryExecuteLoopAux_ne_assert rest.length rest q2
      · simp
  · intro stmt rowLimit params inp q h
    unfold tryLazyQuery
    dsimp only
    rcases hse : stmtExecute stmt
        (stmt.stmtName ++ "_portal_" ++ toString stmt.nextPortalId)
        rowLimit params inp q with ⟨w, res⟩
    rcases res with e | ⟨opt, rest, q2⟩ <;> try dsimp only
    · intro hc
      simp at hc
      have h2 := hsnd stmt (stmt.stmtName ++ "_portal_" ++ toString stmt.nextPortalId)
        rowLimit params inp q h
      rw [hse] at h2
      simp at h2
      exact h2 hc
    · rcases opt with _ | err <;> dsimp only
      · rcases hrr : readRows rest q2
            ⟨stmt.stmtName ++ "_portal_" ++ toString stmt.nextPortalId, [], rowLimit, true⟩
            with e2 | ⟨st2, rest2, q3⟩ <;> dsimp only
        · intro hc
          simp at hc
          exact readRowsAux_ne_assert rest.length rest q2
            ⟨stmt.stmtName ++ "_portal_" ++ toString stmt.nextPortalId, [], rowLimit, true⟩
            (by rw [show readRowsAux rest.length rest q2
                ⟨stmt.stmtName ++ "_portal_" ++ toString stmt.nextPortalId, [], rowLimit, true⟩ =
                readRows rest q2
                ⟨stmt.stmtName ++ "_portal_" ++ toString stmt.nextPortalId, [], rowLimit, true⟩
                from rfl, hrr, hc])
        · simp
      · simp

/-- C9 witness: a one-type statement executed with no parameters fails the
assert with nothing written; the matching-arity run does not. -/
theorem c9_arity_panic_witness :
    tryExecute ⟨"s", [23], [], 0⟩ [] [] [] = ([], .error .assertFailed) ∧
    tryQuery ⟨"s", [23], [], 0⟩ [] [] [] = ([], .error .assertFailed) ∧
    (tryExecute ⟨"s", [], [], 0⟩ [] [] []).2 ≠ .error .assertFailed :=
  ⟨c9_arity_panic.2.1 ⟨"s", [23], [], 0⟩ [] [] [] (by decide),
   c9_arity_panic.2.2.2.1 ⟨"s", [23], [], 0⟩ [] [] [] (by decide),
   c9_arity_panic.2.2.2.2.1 ⟨"s", [], [], 0⟩ [] [] [] rfl⟩

/-- C10 (confirmed): when the backend requests MD5 password authentication
and the URL carries no password, `handle_auth` reports `MissingPassword`
without writing any PasswordMessage, and `try_connect` therefore returns
that connect error (src/lib.rs lines 393-396). -/
theorem c10_md5_missing_password :
    ∀ (u : String) (salt : Bytes) (rest : List BackendMessage)
      (q : List PostgresNotification),
      handleAuth ⟨u, none⟩ (.AuthenticationMD5Password salt :: rest) q =
        ([], .ok (some .missingPassword, rest, q)) := by
  intro u salt rest q
  unfold handleAuth
  rw [readMessage_cons (.AuthenticationMD5Password salt) rest q rfl]

end RustPostgres
